import Mathlib

/-!
Verification of the walk-request lifecycle and conditional-mutation engine of
the little-walk-request repository.

The Rust sources under src/ are embedded shallowly:
  - the structures WalkRequestQuery, WalkRequestUpdate, Pagination, SortBy and
    Order are transcribed from src/core/repository.rs;
  - the conversions of queries and updates into mongodb bson documents are
    transcribed from src/repositories/mongodb.rs (TryFrom and From impls),
    including their exact field order and early returns;
  - the service operations (accept, assign_accepter, dismiss_accepter,
    cancel_unaccepted_request, cancel_accepted_request, resign_acceptance,
    remove_acceptance, start_walk, finish_walk) are transcribed from
    src/core/service.rs;
  - the MongoDB server itself is an external collaborator (section 6 of the
    spec): its query matching, update application and find/aggregate pipeline
    semantics are modelled from the spec, as noted on each such definition.

Timestamps are modelled as natural numbers, numeric values as integers (the
code never computes with the floating point values, it only forwards them),
ObjectId values by their numeric value, and strings are scanned through their
underlying character lists.
-/

/-- Shallow model of a BSON value as it appears inside a mongodb bson
Document built by the repository code. -/
inductive Bson where
  | null : Bson
  | bool (b : Bool) : Bson
  | str (s : String) : Bson
  | int (n : Int) : Bson
  | dt (t : Nat) : Bson
  | objId (n : Nat) : Bson
  | arr (elems : List Bson) : Bson
  | doc (fields : List (String × Bson)) : Bson

/-- A bson Document: an ordered list of key-value pairs with unique keys. -/
abbrev Doc := List (String × Bson)

/-- Document.insert of the bson crate: replace the value in place when the key
exists, append otherwise. -/
def docInsert (d : Doc) (k : String) (v : Bson) : Doc :=
  if d.any (fun p => p.1 == k) then
    d.map (fun p => if p.1 == k then (k, v) else p)
  else d ++ [(k, v)]

/-- Lookup of a key in a document. -/
def docGet (d : Doc) (k : String) : Option Bson :=
  (d.find? (fun p => p.1 == k)).map (fun p => p.2)

/-- WalkRequestQuery from src/core/repository.rs.  The nearby components are
f64 in the source; they are modelled as integers because the code only counts
them and forwards them to the store. -/
structure WalkRequestQuery where
  id : Option String := none
  dog_ids_includes_all : Option (List String) := none
  dog_ids_includes_any : Option (List String) := none
  nearby : Option (List Int) := none
  accepted_by : Option String := none
  accepted_by_neq : Option String := none
  accepted_by_is_null : Option Bool := none
  acceptances_includes_all : Option (List String) := none
  acceptances_includes_any : Option (List String) := none
  created_by : Option String := none

/-- WalkRequestUpdate from src/core/repository.rs.  Dogs are identified by
their id strings. -/
structure WalkRequestUpdate where
  dogs : Option (List String) := none
  should_start_after : Option Nat := none
  should_start_before : Option Nat := none
  should_end_before : Option Nat := none
  should_end_after : Option Nat := none
  latitude : Option Int := none
  longitude : Option Int := none
  accepted_by : Option String := none
  accepted_at : Option Nat := none
  canceled_at : Option Nat := none
  started_at : Option Nat := none
  finished_at : Option Nat := none
  unset_accepted_by : Bool := false
  unset_accepted_at : Bool := false
  add_to_acceptances : Option String := none
  remove_from_acceptances : Option String := none

/-- Order from src/core/repository.rs. -/
inductive Order where
  | Asc : Order
  | Desc : Order
deriving DecidableEq

/-- SortBy from src/core/repository.rs. -/
structure SortBy where
  field : String
  order : Order

/-- Pagination from src/core/repository.rs; page and size are i64. -/
structure Pagination where
  page : Int
  size : Int

/-- Hexadecimal digit test over character codes (0-9, a-f, A-F). -/
def isHexChar (c : Char) : Bool :=
  c.isDigit || (97 ≤ c.toNat && c.toNat ≤ 102) || (65 ≤ c.toNat && c.toNat ≤ 70)

/-- Value of a hexadecimal digit character. -/
def hexVal (c : Char) : Nat :=
  if c.isDigit then c.toNat - 48
  else if 97 ≤ c.toNat then c.toNat - 87
  else c.toNat - 55

/-- ObjectId::from_str: parses a 24 character hexadecimal string into the
numeric value of the ObjectId, failing otherwise. -/
def objectIdFromStr (s : String) : Except String Nat :=
  if s.data.length == 24 && s.data.all isHexChar then
    Except.ok (s.data.foldl (fun a c => a * 16 + hexVal c) 0)
  else
    Except.error "invalid ObjectId"

/-- Insertion of an optional constraint into the accumulated filter: absence
leaves the filter unchanged, mirroring one if-let step of the conversion. -/
def optInsert (q : Doc) (k : String) (f : α → Bson) : Option α → Doc
  | some x => docInsert q k (f x)
  | none => q

/-- Continuation of the query conversion after the id step, transcribed from
src/repositories/mongodb.rs lines 61-107 in the source order: note that the
nearby branch returns before created_by is inserted, and that several
constraints share a document key, so a later insert replaces an earlier one. -/
def walkRequestQueryToDocAux (q0 : Doc) (value : WalkRequestQuery) : Except String Doc :=
  let q1 := optInsert q0 "dogs.id"
    (fun ids => Bson.doc [("$elemMatch", Bson.doc [("$in", Bson.arr (ids.map Bson.str))])])
    value.dog_ids_includes_any
  let q2 := optInsert q1 "dogs.id"
    (fun ids => Bson.doc [("$all", Bson.arr (ids.map Bson.str))])
    value.dog_ids_includes_all
  let q3 := optInsert q2 "accepted_by" Bson.str value.accepted_by
  let q4 := optInsert q3 "accepted_by"
    (fun v => Bson.doc [("$ne", Bson.str v)]) value.accepted_by_neq
  let q5 := optInsert q4 "accepted_by"
    (fun b => if b then Bson.doc [("$eq", Bson.null)] else Bson.doc [("$neq", Bson.null)])
    value.accepted_by_is_null
  let q6 := optInsert q5 "acceptances"
    (fun l => Bson.doc [("$all", Bson.arr (l.map Bson.str))])
    value.acceptances_includes_all
  let q7 := optInsert q6 "acceptances"
    (fun l => Bson.doc [("$elemMatch", Bson.doc [("$in", Bson.arr (l.map Bson.str))])])
    value.acceptances_includes_any
  match value.nearby with
  | some nearby =>
    if nearby.length != 3 then
      Except.error "Invalid nearby query, expect [f64;3]"
    else
      Except.ok [("$geoNear", Bson.doc [
        ("near", Bson.doc [("type", Bson.str "Point"),
          ("coordinates", Bson.arr [Bson.int (nearby.getD 0 0), Bson.int (nearby.getD 1 0)])]),
        ("distanceField", Bson.str "distance"),
        ("maxDistance", Bson.int (nearby.getD 2 0)),
        ("spherical", Bson.bool true),
        ("query", Bson.doc q7),
        ("includeLocs", Bson.str "location")])]
  | none =>
    Except.ok (optInsert q7 "created_by" Bson.str value.created_by)

/-- TryFrom of WalkRequestQuery for Document, transcribed from
src/repositories/mongodb.rs lines 54-109: the id step is the only fallible
one (ObjectId parse); the remaining constraint insertions continue in
walkRequestQueryToDocAux in the source order. -/
def walkRequestQueryToDoc (value : WalkRequestQuery) : Except String Doc :=
  match value.id with
  | some id =>
    match objectIdFromStr id with
    | Except.error e => Except.error e
    | Except.ok n => walkRequestQueryToDocAux (docInsert [] "_id" (Bson.objId n)) value
  | none => walkRequestQueryToDocAux [] value

/-- From of WalkRequestUpdate for Document, transcribed from
src/repositories/mongodb.rs lines 111-163 in the source order: note that
add_to_acceptances is inserted under the set sub-document with the key
"$addToSet", and that the canceled_at field of the update is never read. -/
def walkRequestUpdateToDoc (update : WalkRequestUpdate) : Doc := Id.run do
  let mut set : Doc := []
  if let some dogs := update.dogs then
    set := docInsert set "dogs" (Bson.arr (dogs.map Bson.str))
  if let some accepted_by := update.accepted_by then
    set := docInsert set "accepted_by" (Bson.str accepted_by)
  if let some accepted_at := update.accepted_at then
    set := docInsert set "accepted_at" (Bson.dt accepted_at)
  if let some latitude := update.latitude then
    set := docInsert set "latitude" (Bson.int latitude)
  if let some longitude := update.longitude then
    set := docInsert set "longitude" (Bson.int longitude)
  if let some should_start_after := update.should_start_after then
    set := docInsert set "should_start_after" (Bson.dt should_start_after)
  if let some should_start_before := update.should_start_before then
    set := docInsert set "should_start_before" (Bson.dt should_start_before)
  if let some should_end_before := update.should_end_before then
    set := docInsert set "should_end_before" (Bson.dt should_end_before)
  if let some should_end_after := update.should_end_after then
    set := docInsert set "should_end_after" (Bson.dt should_end_after)
  if let some add_to_acceptances := update.add_to_acceptances then
    set := docInsert set "$addToSet" (Bson.doc [("acceptances", Bson.str add_to_acceptances)])
  if let some started_at := update.started_at then
    set := docInsert set "started_at" (Bson.dt started_at)
  if let some finished_at := update.finished_at then
    set := docInsert set "finished_at" (Bson.dt finished_at)
  let mut pull : Doc := []
  if let some remove_from_acceptances := update.remove_from_acceptances then
    pull := docInsert pull "acceptances" (Bson.str remove_from_acceptances)
  let mut unset : Doc := []
  if update.unset_accepted_by then
    unset := docInsert unset "accepted_by" (Bson.str "")
  if update.unset_accepted_at then
    unset := docInsert unset "accepted_at" (Bson.str "")
  return [("$set", Bson.doc set), ("$unset", Bson.doc unset), ("$pull", Bson.doc pull)]

/-- A walk request record as persisted in the walk_requests collection.  Dogs
are kept as their id strings; the geographic location is abstracted away (the
distance of a record from a query point is a parameter of the query model). -/
structure StoredRequest where
  oid : Nat
  dogs : List String := []
  created_by : String := ""
  accepted_by : Option String := none
  accepted_at : Option Nat := none
  canceled_at : Option Nat := none
  started_at : Option Nat := none
  finished_at : Option Nat := none
  acceptances : List String := []
deriving DecidableEq

/-- The walk_requests collection in store-native order. -/
abbrev Store := List StoredRequest

/-- Modelled from the spec: evaluation of one named constraint of a filter
document against a record, following the predicate model of section 4.1 (id,
dog-id membership, accepted_by value, negation and null test, acceptances
membership, created_by).  A constraint form the store does not know matches
nothing. -/
def matchConstraint (r : StoredRequest) : String × Bson → Bool
  | ("_id", Bson.objId n) => r.oid == n
  | ("accepted_by", Bson.str v) => r.accepted_by == some v
  | ("accepted_by", Bson.doc [("$eq", Bson.null)]) => r.accepted_by == none
  | ("accepted_by", Bson.doc [("$ne", Bson.str v)]) => r.accepted_by != some v
  | ("created_by", Bson.str v) => r.created_by == v
  | ("acceptances", Bson.doc [("$all", Bson.arr l)]) =>
      l.all (fun b => match b with
        | Bson.str v => r.acceptances.contains v
        | _ => false)
  | ("acceptances", Bson.doc [("$elemMatch", Bson.doc [("$in", Bson.arr l)])]) =>
      l.any (fun b => match b with
        | Bson.str v => r.acceptances.contains v
        | _ => false)
  | ("dogs.id", Bson.doc [("$all", Bson.arr l)]) =>
      l.all (fun b => match b with
        | Bson.str v => r.dogs.contains v
        | _ => false)
  | ("dogs.id", Bson.doc [("$elemMatch", Bson.doc [("$in", Bson.arr l)])]) =>
      l.any (fun b => match b with
        | Bson.str v => r.dogs.contains v
        | _ => false)
  | _ => false

/-- Modelled from the spec: a filter document matches a record when every
constraint in it matches (section 4.1: constraints compose with logical AND). -/
def matchQueryDoc (d : Doc) (r : StoredRequest) : Bool :=
  d.all (matchConstraint r)

/-- Extraction of the set sub-document of an update document. -/
def setPart (u : Doc) : Doc :=
  match docGet u "$set" with
  | some (Bson.doc d) => d
  | _ => []

/-- Extraction of the unset sub-document of an update document. -/
def unsetPart (u : Doc) : Doc :=
  match docGet u "$unset" with
  | some (Bson.doc d) => d
  | _ => []

/-- Extraction of the pull sub-document of an update document. -/
def pullPart (u : Doc) : Doc :=
  match docGet u "$pull" with
  | some (Bson.doc d) => d
  | _ => []

/-- Dollar character, written by code to avoid a character literal. -/
def dollarChar : Char := Char.ofNat 36

/-- Modelled from the spec: the mutation model of section 4.2 assigns entity
fields; a field assignment whose name is an operator token (a name starting
with the dollar sign) is not a field and the store rejects the update. -/
def validUpdateDoc (u : Doc) : Bool :=
  (setPart u).all (fun p => p.1.data.head? != some dollarChar)

/-- Modelled from the spec: application of one field assignment of the set
sub-document to a record.  Assignments to names that are not lifecycle fields
of the record leave it unchanged. -/
def applySetField (r : StoredRequest) : String × Bson → StoredRequest
  | ("accepted_by", Bson.str v) => { r with accepted_by := some v }
  | ("accepted_at", Bson.dt t) => { r with accepted_at := some t }
  | ("canceled_at", Bson.dt t) => { r with canceled_at := some t }
  | ("started_at", Bson.dt t) => { r with started_at := some t }
  | ("finished_at", Bson.dt t) => { r with finished_at := some t }
  | ("dogs", Bson.arr l) =>
      { r with dogs := l.filterMap (fun b => match b with
          | Bson.str s => some s
          | _ => none) }
  | _ => r

/-- Modelled from the spec: application of one field clear of the unset
sub-document to a record. -/
def applyUnsetField (r : StoredRequest) : String × Bson → StoredRequest
  | ("accepted_by", _) => { r with accepted_by := none }
  | ("accepted_at", _) => { r with accepted_at := none }
  | ("canceled_at", _) => { r with canceled_at := none }
  | _ => r

/-- Modelled from the spec: application of one set-remove of the pull
sub-document to a record; every occurrence of the value is removed. -/
def applyPullField (r : StoredRequest) : String × Bson → StoredRequest
  | ("acceptances", Bson.str v) => { r with acceptances := r.acceptances.filter (fun a => a != v) }
  | _ => r

/-- Modelled from the spec: application of a whole update document to a
record, assignments first, then clears, then removals, as one atomic write
(section 4.2). -/
def applyUpdateDoc (u : Doc) (r : StoredRequest) : StoredRequest :=
  let r1 := (setPart u).foldl applySetField r
  let r2 := (unsetPart u).foldl applyUnsetField r1
  (pullPart u).foldl applyPullField r2

/-- Modelled from the spec: the store's atomic find-one-and-modify primitive
(section 6).  The first record matching the filter is replaced by its updated
version and returned after the update; when nothing matches the store is
unchanged. -/
def findOneAndUpdateGo (filter upd : Doc) : Store → Option StoredRequest × Store
  | [] => (none, [])
  | r :: rest =>
    if matchQueryDoc filter r then
      (some (applyUpdateDoc upd r), applyUpdateDoc upd r :: rest)
    else
      let (res, rest2) := findOneAndUpdateGo filter upd rest
      (res, r :: rest2)

/-- Modelled from the spec: the store's update-many primitive (section 6).
Every matching record is replaced by its updated version; the count is the
modified count returned by the driver, the number of records whose stored
value actually changed. -/
def updateManyGo (filter upd : Doc) : Store → Nat × Store
  | [] => (0, [])
  | r :: rest =>
    let (n, rest2) := updateManyGo filter upd rest
    if matchQueryDoc filter r then
      let r2 := applyUpdateDoc upd r
      (n + (if r2 = r then 0 else 1), r2 :: rest2)
    else (n, r :: rest2)

/-- Mongodb::update_walk_request_by_query from src/repositories/mongodb.rs:
convert the query and the update, run the atomic find-one-and-modify, and
report the missing-record error on no match.  An update document the store
rejects surfaces as a store error. -/
def update_walk_request_by_query (query : WalkRequestQuery) (update : WalkRequestUpdate)
    (s : Store) : Except String StoredRequest × Store :=
  match walkRequestQueryToDoc query with
  | Except.error e => (Except.error e, s)
  | Except.ok f =>
    let u := walkRequestUpdateToDoc update
    if validUpdateDoc u then
      match findOneAndUpdateGo f u s with
      | (none, s2) => (Except.error "代遛请求不存在", s2)
      | (some r, s2) => (Except.ok r, s2)
    else (Except.error "invalid update document", s)

/-- Mongodb::update_walk_requests_by_query from src/repositories/mongodb.rs:
convert the query and the update, run update-many, and return the modified
count. -/
def update_walk_requests_by_query (query : WalkRequestQuery) (update : WalkRequestUpdate)
    (s : Store) : Except String Nat × Store :=
  match walkRequestQueryToDoc query with
  | Except.error e => (Except.error e, s)
  | Except.ok f =>
    let u := walkRequestUpdateToDoc update
    if validUpdateDoc u then
      let (n, s2) := updateManyGo f u s
      (Except.ok n, s2)
    else (Except.error "invalid update document", s)

/-- Service::accept from src/core/service.rs: guard accepted_by-is-null and
assign accepted_by and accepted_at in one conditional mutation; now stands for
Utc::now(). -/
def Service.accept (request_id user_id : String) (now : Nat) (s : Store) :
    Except String StoredRequest × Store :=
  update_walk_request_by_query
    { id := some request_id, accepted_by_is_null := some true }
    { accepted_by := some user_id, accepted_at := some now } s

/-- Service::assign_accepter from src/core/service.rs. -/
def Service.assign_accepter (request_id user_id : String) (now : Nat) (s : Store) :
    Except String Unit × Store :=
  match update_walk_requests_by_query
      { id := some request_id, accepted_by_is_null := some true,
        acceptances_includes_all := some [user_id] }
      { accepted_by := some user_id, accepted_at := some now } s with
  | (Except.ok n, s2) =>
      if n == 1 then (Except.ok (), s2) else (Except.error "请求不存在或该用户已取消报名", s2)
  | (Except.error e, s2) => (Except.error e, s2)

/-- Service::remove_acceptance from src/core/service.rs. -/
def Service.remove_acceptance (request_id user_id : String) (s : Store) :
    Except String Unit × Store :=
  match update_walk_requests_by_query
      { id := some request_id, accepted_by_neq := some user_id }
      { remove_from_acceptances := some user_id } s with
  | (Except.ok n, s2) =>
      if n == 1 then (Except.ok (), s2) else (Except.error "请求不存在或狗狗主人已通过请求", s2)
  | (Except.error e, s2) => (Except.error e, s2)

/-- Service::dismiss_accepter from src/core/service.rs. -/
def Service.dismiss_accepter (request_id user_id : String) (s : Store) :
    Except String Unit × Store :=
  match update_walk_requests_by_query
      { id := some request_id, accepted_by := some user_id }
      { unset_accepted_by := true, unset_accepted_at := true } s with
  | (Except.ok n, s2) =>
      if n == 1 then (Except.ok (), s2) else (Except.error "请求不存在或该用户已取消报名", s2)
  | (Except.error e, s2) => (Except.error e, s2)

/-- Service::cancel_unaccepted_request from src/core/service.rs. -/
def Service.cancel_unaccepted_request (request_id : String) (now : Nat) (s : Store) :
    Except String Unit × Store :=
  match update_walk_requests_by_query
      { id := some request_id, accepted_by_is_null := some true }
      { canceled_at := some now } s with
  | (Except.ok n, s2) =>
      if n == 1 then (Except.ok (), s2) else (Except.error "请求不存在", s2)
  | (Except.error e, s2) => (Except.error e, s2)

/-- Service::cancel_accepted_request from src/core/service.rs. -/
def Service.cancel_accepted_request (request_id user_id : String) (now : Nat) (s : Store) :
    Except String Unit × Store :=
  match update_walk_requests_by_query
      { id := some request_id, accepted_by := some user_id }
      { canceled_at := some now } s with
  | (Except.ok n, s2) =>
      if n == 1 then (Except.ok (), s2) else (Except.error "请求不存在", s2)
  | (Except.error e, s2) => (Except.error e, s2)

/-- Service::resign_acceptance from src/core/service.rs. -/
def Service.resign_acceptance (request_id user_id : String) (s : Store) :
    Except String Unit × Store :=
  match update_walk_requests_by_query
      { id := some request_id, accepted_by := some user_id }
      { unset_accepted_by := true, unset_accepted_at := true,
        remove_from_acceptances := some user_id } s with
  | (Except.ok n, s2) =>
      if n == 1 then (Except.ok (), s2) else (Except.error "请求不存在或已被狗狗主人取消", s2)
  | (Except.error e, s2) => (Except.error e, s2)

/-- Service::start_walk from src/core/service.rs. -/
def Service.start_walk (request_id user_id : String) (now : Nat) (s : Store) :
    Except String StoredRequest × Store :=
  update_walk_request_by_query
    { id := some request_id, accepted_by := some user_id }
    { started_at := some now } s

/-- Service::finish_walk from src/core/service.rs. -/
def Service.finish_walk (request_id user_id : String) (now : Nat) (s : Store) :
    Except String StoredRequest × Store :=
  update_walk_request_by_query
    { id := some request_id, accepted_by := some user_id }
    { finished_at := some now } s

/-- The volunteer mutation pair of the spec table in section 4.3: predicate id
equals r, mutation insert u into acceptances, executed through the store's
update-many primitive exactly as the repository would convert it. -/
def volunteerOp (request_id user_id : String) (s : Store) : Except String Nat × Store :=
  update_walk_requests_by_query
    { id := some request_id }
    { add_to_acceptances := some user_id } s

/-- Rust cast as u64: value modulo 2 to the 64. -/
def u64Wrap (n : Int) : Nat :=
  (n % (2 : Int) ^ 64).toNat

/-- Skip offset of the plain find branch of Mongodb::query_walk_requests,
src/repositories/mongodb.rs lines 270-274: the u64 expression
(page as u64 - 1) * size as u64 with wrapping subtraction and
multiplication. -/
def plainSkip (page size : Int) : Nat :=
  (u64Wrap page + 2 ^ 64 - 1) % 2 ^ 64 * u64Wrap size % 2 ^ 64

/-- Sort order of one sort specification lifted over a store-native single
field comparison; a descending sort flips the comparison. -/
def sortRelB (fieldLe : String → StoredRequest → StoredRequest → Bool)
    (sb : SortBy) (a b : StoredRequest) : Bool :=
  match sb.order with
  | Order.Asc => fieldLe sb.field a b
  | Order.Desc => fieldLe sb.field b a

/-- Modelled from the spec: the store's find primitive (section 6) applied to
the walk_requests collection: filter, then sort when given, then skip, then
limit.  The single-field ordering of the store is the parameter fieldLe. -/
def findPrimitive (fieldLe : String → StoredRequest → StoredRequest → Bool)
    (filter : Doc) (sort_by : Option SortBy) (skip : Option Nat) (limit : Option Int)
    (s : Store) : Store :=
  let m := s.filter (fun r => matchQueryDoc filter r)
  let sorted := match sort_by with
    | none => m
    | some sb => List.insertionSort (fun a b => sortRelB fieldLe sb a b = true) m
  let skipped := match skip with
    | none => sorted
    | some k => sorted.drop k
  match limit with
  | none => skipped
  | some l => skipped.take l.toNat

/-- Modelled from the spec: the geoNear stage (sections 4.4 and 6): records
matching the inner query whose distance from the query point is within the
radius, ranked by ascending distance, each annotated with its distance.  The
distance of a record from the query point is the parameter dist. -/
def geoNearStage (dist : StoredRequest → Int) (innerQ : Doc) (maxD : Int)
    (s : Store) : List (StoredRequest × Int) :=
  let m := s.filter (fun r => decide (dist r ≤ maxD) && matchQueryDoc innerQ r)
  List.insertionSort (fun a b => dist a.1 ≤ dist b.1) (m.map (fun r => (r, dist r)))

/-- Mongodb::query_walk_requests from src/repositories/mongodb.rs lines
227-284.  When the query has a nearby constraint the aggregation pipeline is
the geoNear stage, the projection, then skip and limit when pagination is
given, then the sort stage when a sort is given, in the source order; a
negative skip stage is rejected by the store.  Otherwise the find primitive
runs with the plain u64 skip expression and the size as limit.  Results carry
the populated distance field when the geoNear branch ran. -/
def query_walk_requests (dist : StoredRequest → Int)
    (fieldLe : String → StoredRequest → StoredRequest → Bool)
    (query : WalkRequestQuery) (sort_by : Option SortBy) (pagination : Option Pagination)
    (s : Store) : Except String (List (StoredRequest × Option Int)) :=
  if query.nearby.isSome then
    match walkRequestQueryToDoc query with
    | Except.error e => Except.error e
    | Except.ok d =>
      match docGet d "$geoNear" with
      | some (Bson.doc g) =>
        match docGet g "query", docGet g "maxDistance" with
        | some (Bson.doc innerQ), some (Bson.int maxD) =>
          let ranked := geoNearStage dist innerQ maxD s
          match pagination with
          | some p =>
            if (p.page - 1) * p.size < 0 then
              Except.error "skip stage must not be negative"
            else
              let paged := (ranked.drop ((p.page - 1) * p.size).toNat).take p.size.toNat
              let sorted := match sort_by with
                | none => paged
                | some sb =>
                  List.insertionSort (fun a b => sortRelB fieldLe sb a.1 b.1 = true) paged
              Except.ok (sorted.map (fun pr => (pr.1, some pr.2)))
          | none =>
            let sorted := match sort_by with
              | none => ranked
              | some sb =>
                List.insertionSort (fun a b => sortRelB fieldLe sb a.1 b.1 = true) ranked
            Except.ok (sorted.map (fun pr => (pr.1, some pr.2)))
        | _, _ => Except.error "malformed geoNear stage"
      | _ => Except.error "malformed geoNear stage"
  else
    match walkRequestQueryToDoc query with
    | Except.error e => Except.error e
    | Except.ok f =>
      Except.ok ((findPrimitive fieldLe f sort_by
        (pagination.map (fun p => plainSkip p.page p.size))
        (pagination.map (fun p => p.size)) s).map (fun r => (r, none)))

/-- Aggregation expression over a record, covering the operators used by the
status projection of WalkRequest::projection. -/
inductive AggExpr where
  | fieldRef (name : String) : AggExpr
  | litNull : AggExpr
  | litStr (s : String) : AggExpr
  | ifNull (e1 e2 : AggExpr) : AggExpr
  | ne (e1 e2 : AggExpr) : AggExpr

/-- Lookup of a lifecycle timestamp field of a record as a bson value, null
when absent, as the aggregation pipeline sees the stored document. -/
def fieldValue (r : StoredRequest) (name : String) : Bson :=
  if name == "canceled_at" then (match r.canceled_at with | some t => Bson.dt t | none => Bson.null)
  else if name == "accepted_at" then (match r.accepted_at with | some t => Bson.dt t | none => Bson.null)
  else if name == "started_at" then (match r.started_at with | some t => Bson.dt t | none => Bson.null)
  else if name == "finished_at" then (match r.finished_at with | some t => Bson.dt t | none => Bson.null)
  else Bson.null

/-- Equality test of the scalar bson values the status projection compares. -/
def bsonEqScalar : Bson → Bson → Bool
  | Bson.null, Bson.null => true
  | Bson.str a, Bson.str b => a == b
  | Bson.dt a, Bson.dt b => a == b
  | Bson.int a, Bson.int b => a == b
  | Bson.bool a, Bson.bool b => a == b
  | _, _ => false

/-- Modelled from the spec: evaluation of an aggregation expression against a
record, with mongodb semantics of ifNull and ne. -/
def evalAggExpr (r : StoredRequest) : AggExpr → Bson
  | AggExpr.fieldRef name => fieldValue r name
  | AggExpr.litNull => Bson.null
  | AggExpr.litStr s => Bson.str s
  | AggExpr.ifNull e1 e2 =>
    match evalAggExpr r e1 with
    | Bson.null => evalAggExpr r e2
    | v => v
  | AggExpr.ne e1 e2 => Bson.bool (!(bsonEqScalar (evalAggExpr r e1) (evalAggExpr r e2)))

/-- Modelled from the spec: evaluation of a switch aggregation operator: the
then-expression of the first branch whose case evaluates to true, else the
default. -/
def evalSwitch (r : StoredRequest) : List (AggExpr × AggExpr) → AggExpr → Bson
  | [], dflt => evalAggExpr r dflt
  | (c, t) :: rest, dflt =>
    match evalAggExpr r c with
    | Bson.bool true => evalAggExpr r t
    | _ => evalSwitch r rest dflt

/-- One branch of the status switch: case canceled_at (or another timestamp)
is not null after ifNull normalisation, then the given status label. -/
def statusBranch (field label : String) : AggExpr × AggExpr :=
  (AggExpr.ne (AggExpr.ifNull (AggExpr.fieldRef field) AggExpr.litNull) AggExpr.litNull,
   AggExpr.litStr label)

/-- The branches of the status switch of WalkRequest::projection,
src/repositories/mongodb.rs lines 36-46, in the source order. -/
def statusBranches : List (AggExpr × AggExpr) :=
  [statusBranch "canceled_at" "Canceled",
   statusBranch "accepted_at" "Accepted",
   statusBranch "started_at" "Started",
   statusBranch "finished_at" "Finished"]

/-- The status field computed by the projection for a record: the switch over
the four lifecycle timestamps with default Waiting. -/
def projectedStatus (r : StoredRequest) : Bson :=
  evalSwitch r statusBranches (AggExpr.litStr "Waiting")

/-- Status derivation exactly as the spec words it in section 3: canceled
first, then accepted, then started, then finished, else waiting, a function of
the four lifecycle timestamps only. -/
def statusOfTimestamps (canceled accepted started finished : Option Nat) : String :=
  if canceled.isSome then "Canceled"
  else if accepted.isSome then "Accepted"
  else if started.isSome then "Started"
  else if finished.isSome then "Finished"
  else "Waiting"

deriving instance DecidableEq for Except

/-- The update-many primitive is the modified-record count of the filtered
store together with the pointwise-updated store. -/
theorem updateManyGo_eq (f u : Doc) (s : Store) :
    updateManyGo f u s =
      ((s.filter (fun r => matchQueryDoc f r && decide (applyUpdateDoc u r ≠ r))).length,
       s.map (fun r => if matchQueryDoc f r then applyUpdateDoc u r else r)) := by
  induction s with
  | nil => rfl
  | cons r rest ih =>
    by_cases h : matchQueryDoc f r = true
    · by_cases h2 : applyUpdateDoc u r = r <;>
        simp [updateManyGo, ih, h, h2, List.filter, Nat.add_comm]
    · simp at h
      simp [updateManyGo, ih, h, List.filter]

/-- A find-one-and-modify over a store with no matching record returns no
record and leaves the store unchanged. -/
theorem findOneAndUpdateGo_no_match (f u : Doc) (s : Store)
    (h : ∀ x ∈ s, matchQueryDoc f x = false) :
    findOneAndUpdateGo f u s = (none, s) := by
  induction s with
  | nil => rfl
  | cons r rest ih =>
    have hr := h r (by simp)
    rw [findOneAndUpdateGo, hr]
    simp [ih (fun x hx => h x (by simp [hx]))]

/-- A find-one-and-modify replaces exactly the first matching record by its
updated version and returns it. -/
theorem findOneAndUpdateGo_first (f u : Doc) (pre post : Store) (r : StoredRequest)
    (hpre : ∀ x ∈ pre, matchQueryDoc f x = false) (hr : matchQueryDoc f r = true) :
    findOneAndUpdateGo f u (pre ++ r :: post) =
      (some (applyUpdateDoc u r), pre ++ applyUpdateDoc u r :: post) := by
  induction pre with
  | nil => simp [findOneAndUpdateGo, hr]
  | cons x rest ih =>
    have hx := hpre x (by simp)
    rw [List.cons_append, findOneAndUpdateGo, hx]
    simp [ih (fun y hy => hpre y (by simp [hy]))]

/-- Filtering a list by disequality with a value keeps it unchanged exactly
when the value is absent. -/
theorem filter_ne_eq_self_iff (l : List String) (v : String) :
    (l.filter (fun a => a != v) = l) ↔ v ∉ l := by
  rw [List.filter_eq_self]
  constructor
  · intro h hv
    have := h v hv
    simp at this
  · intro hv a ha
    simp
    intro heq
    exact hv (heq ▸ ha)

/-- C4: for every request, status is a pure function of only the four
lifecycle timestamps, stable under repeated evaluation, derived with
precedence canceled, then accepted, then started, then finished, else
waiting: the status switch of the projection evaluates on every record to the
spec's precedence function of exactly the four timestamps, and two records
agreeing on those four timestamps get the same status. -/
theorem status_switch_matches_precedence :
    (∀ r : StoredRequest, projectedStatus r =
       Bson.str (statusOfTimestamps r.canceled_at r.accepted_at r.started_at r.finished_at)) ∧
    (∀ r1 r2 : StoredRequest, r1.canceled_at = r2.canceled_at → r1.accepted_at = r2.accepted_at →
       r1.started_at = r2.started_at → r1.finished_at = r2.finished_at →
       projectedStatus r1 = projectedStatus r2) := by
  have key : ∀ r : StoredRequest, projectedStatus r =
      Bson.str (statusOfTimestamps r.canceled_at r.accepted_at r.started_at r.finished_at) := by
    intro r
    cases hc : r.canceled_at <;> cases ha : r.accepted_at <;>
      cases hs : r.started_at <;> cases hf : r.finished_at <;>
      simp [projectedStatus, evalSwitch, statusBranches, statusBranch, evalAggExpr,
        fieldValue, bsonEqScalar, statusOfTimestamps, hc, ha, hs, hf]
  refine ⟨key, fun r1 r2 h1 h2 h3 h4 => ?_⟩
  rw [key r1, key r2, h1, h2, h3, h4]

/-- Closed instance of the status theorem on concrete records: a canceled and
started record reports Canceled, and two records differing only outside the
four timestamps report the same status. -/
theorem status_switch_matches_precedence_witness :
    projectedStatus { oid := 1, canceled_at := some 3, started_at := some 9 } = Bson.str "Canceled" ∧
    projectedStatus { oid := 1, started_at := some 4 } =
      projectedStatus { oid := 2, dogs := ["d1"], created_by := "o", started_at := some 4 } := by
  exact ⟨status_switch_matches_precedence.1 _,
    status_switch_matches_precedence.2 _ _ rfl rfl rfl rfl⟩

/-- C10: the plain branch skip is the u64 expression (page - 1) * size: for
page at least one it is the intended offset, while page zero makes the
unsigned subtraction wrap to a huge offset instead of the first page, and the
query still executes without any validation error. -/
theorem plain_skip_u64_underflow :
    (∀ page size : Int, 1 ≤ page → 0 ≤ size → page < 2 ^ 64 → size < 2 ^ 64 →
       (page - 1) * size < 2 ^ 64 →
       plainSkip page size = ((page - 1) * size).toNat) ∧
    plainSkip 0 10 = 18446744073709551606 ∧
    plainSkip 0 10 ≠ 0 ∧
    (∀ dist fieldLe (s : Store), ∃ res,
       query_walk_requests dist fieldLe {} none (some { page := 0, size := 10 }) s =
         Except.ok res) := by
  refine ⟨?_, by decide, by decide, ?_⟩
  · intro page size h1 h0 hp hs hps
    have hpage : u64Wrap page = page.toNat := by
      unfold u64Wrap
      rw [Int.emod_eq_of_lt (by omega) hp]
    have hsize : u64Wrap size = size.toNat := by
      unfold u64Wrap
      rw [Int.emod_eq_of_lt h0 hs]
    unfold plainSkip
    rw [hpage, hsize]
    have h2 : page.toNat + 2 ^ 64 - 1 = (page.toNat - 1) + 2 ^ 64 := by omega
    have h4 : page.toNat - 1 < 2 ^ 64 := by omega
    have hmul : ((page - 1) * size).toNat = (page.toNat - 1) * size.toNat := by
      lift page to Nat using (by omega : (0:Int) ≤ page) with p
      lift size to Nat using h0 with z
      have e1 : (p : Int) - 1 = ((p - 1 : Nat) : Int) := by
        have : 1 ≤ p := by exact_mod_cast h1
        omega
      rw [e1, ← Nat.cast_mul, Int.toNat_natCast, Int.toNat_natCast, Int.toNat_natCast]
    rw [h2]
    rw [Nat.add_mod_right (page.toNat - 1) (2 ^ 64)]
    rw [Nat.mod_eq_of_lt h4]
    have h5 : (page.toNat - 1) * size.toNat < 2 ^ 64 := by omega
    rw [Nat.mod_eq_of_lt h5]
    omega
  · intro dist fieldLe s
    exact ⟨_, rfl⟩

/-- Closed instance of the skip theorem: page two with size ten skips exactly
ten records. -/
theorem plain_skip_u64_underflow_witness :
    plainSkip 2 10 = 10 := by
  have h := plain_skip_u64_underflow.1 2 10 (by decide) (by decide) (by decide) (by decide) (by decide)
  simpa using h

/-- C6: evaluation of both cancel operations at the failing input, a stored
request accepted by walker w1.  The unaccepted cancel correctly guard-fails
and leaves the record unchanged, but the accepted cancel by w1, which the
claim says succeeds and makes the status Canceled, also fails: the update
conversion drops canceled_at, the store receives an empty mutation, modifies
zero records, and the service reports the not-found error while the record
keeps status Accepted. -/
theorem cancel_accepted_drops_canceled_at :
    (Service.cancel_unaccepted_request "000000000000000000000001" 7
      [{ oid := 1, accepted_by := some "w1", accepted_at := some 3 }]).1 =
        Except.error "请求不存在" ∧
    (Service.cancel_unaccepted_request "000000000000000000000001" 7
      [{ oid := 1, accepted_by := some "w1", accepted_at := some 3 }]).2 =
        [{ oid := 1, accepted_by := some "w1", accepted_at := some 3 }] ∧
    walkRequestUpdateToDoc { canceled_at := some 7 } =
      [("$set", Bson.doc []), ("$unset", Bson.doc []), ("$pull", Bson.doc [])] ∧
    (Service.cancel_accepted_request "000000000000000000000001" "w1" 7
      [{ oid := 1, accepted_by := some "w1", accepted_at := some 3 }]).1 =
        Except.error "请求不存在" ∧
    (Service.cancel_accepted_request "000000000000000000000001" "w1" 7
      [{ oid := 1, accepted_by := some "w1", accepted_at := some 3 }]).2.map projectedStatus =
        [Bson.str "Accepted"] := by
  exact ⟨rfl, rfl, rfl, rfl, rfl⟩

/-- C3: the volunteer mutation does not perform a set-insert: the update
conversion nests the set-insert operator inside the set sub-document as a
field named with an operator token, the store rejects such an update, and
executing the volunteer pair (predicate id equals r, mutation insert w1 into
acceptances) on a record with empty acceptances errors and inserts nothing. -/
theorem volunteer_addToSet_nested_in_set :
    walkRequestUpdateToDoc { add_to_acceptances := some "w1" } =
      [("$set", Bson.doc [("$addToSet", Bson.doc [("acceptances", Bson.str "w1")])]),
       ("$unset", Bson.doc []), ("$pull", Bson.doc [])] ∧
    validUpdateDoc (walkRequestUpdateToDoc { add_to_acceptances := some "w1" }) = false ∧
    (volunteerOp "000000000000000000000001" "w1" [{ oid := 1 }]).1 =
      Except.error "invalid update document" ∧
    (volunteerOp "000000000000000000000001" "w1" [{ oid := 1 }]).2.map
      (fun r => r.acceptances) = [[]] := by
  exact ⟨rfl, rfl, rfl, rfl⟩

/-- C2: the executed store filter is not the conjunction of all constraints
present in the query: with created_by together with nearby, the conversion
returns the geoNear document before created_by is inserted, the inner query
sub-document is empty, and a record created by a different user at distance
zero is returned even though the created_by constraint is set to owner1. -/
theorem created_by_dropped_under_nearby :
    walkRequestQueryToDoc { created_by := some "owner1", nearby := some [0, 0, 100] } =
      Except.ok [("$geoNear", Bson.doc [
        ("near", Bson.doc [("type", Bson.str "Point"),
          ("coordinates", Bson.arr [Bson.int 0, Bson.int 0])]),
        ("distanceField", Bson.str "distance"),
        ("maxDistance", Bson.int 100),
        ("spherical", Bson.bool true),
        ("query", Bson.doc []),
        ("includeLocs", Bson.str "location")])] ∧
    query_walk_requests (fun _ => 0) (fun _ _ _ => true)
      { created_by := some "owner1", nearby := some [0, 0, 100] } none none
      [{ oid := 2, created_by := "someone-else" }] =
      Except.ok [({ oid := 2, created_by := "someone-else" }, some 0)] := by
  exact ⟨rfl, rfl⟩

/-- C7 counterexample: a record with the queried id exists and its
accepted_by differs from w1, yet remove volunteer reports the failure error,
because w1 is not among the acceptances, the pull modifies nothing, and the
driver's modified count is zero. -/
theorem remove_acceptance_zero_modified :
    (({ oid := 1 } : StoredRequest).accepted_by ≠ some "w1") ∧
    (Service.remove_acceptance "000000000000000000000001" "w1" [{ oid := 1 }]).1 =
      Except.error "请求不存在或狗狗主人已通过请求" := by
  exact ⟨by decide, rfl⟩

/-- Filtering a store that holds exactly one record with the targeted id
keeps at most that record. -/
theorem filter_single_mid (p : StoredRequest → Bool) (pre post : Store) (r : StoredRequest)
    (h1 : ∀ x ∈ pre, p x = false) (h2 : ∀ x ∈ post, p x = false) :
    List.filter p (pre ++ r :: post) = if p r then [r] else [] := by
  rw [List.filter_append, List.filter_cons]
  rw [List.filter_eq_nil_iff.mpr (fun x hx => by simp [h1 x hx]),
    List.filter_eq_nil_iff.mpr (fun x hx => by simp [h2 x hx])]
  by_cases h : p r <;> simp [h]

/-- Conversion of the remove-volunteer query: id equals the parsed ObjectId
and accepted_by differs from the walker. -/
theorem removeFilter_eq (rid uid : String) (n : Nat) (hp : objectIdFromStr rid = Except.ok n) :
    walkRequestQueryToDoc { id := some rid, accepted_by_neq := some uid } =
      Except.ok [("_id", Bson.objId n), ("accepted_by", Bson.doc [("$ne", Bson.str uid)])] := by
  simp [walkRequestQueryToDoc, walkRequestQueryToDocAux, optInsert, hp, docInsert]

/-- The remove-volunteer filter matches a record exactly when the id agrees
and accepted_by differs from the walker. -/
theorem match_removeFilter (n : Nat) (uid : String) (x : StoredRequest) :
    matchQueryDoc [("_id", Bson.objId n), ("accepted_by", Bson.doc [("$ne", Bson.str uid)])] x =
      ((x.oid == n) && (x.accepted_by != some uid)) := by
  simp [matchQueryDoc, List.all]
  rfl

/-- The remove-volunteer mutation pulls the walker out of the acceptances
array and touches nothing else. -/
theorem apply_removeUpdate (uid : String) (x : StoredRequest) :
    applyUpdateDoc (walkRequestUpdateToDoc { remove_from_acceptances := some uid }) x =
      { x with acceptances := x.acceptances.filter (fun a => a != uid) } := by
  rfl

/-- Replacing only the acceptances of a record gives the same record exactly
when the replacement equals the old list. -/
theorem withAcceptances_eq_self (x : StoredRequest) (l : List String) :
    ({ x with acceptances := l } = x) ↔ l = x.acceptances := by
  cases x
  simp

/-- C7 amended: remove volunteer reports success exactly when a record with
the queried id exists whose accepted_by is not u and whose acceptances
contain u, because the engine returns the driver's modified count and a pull
of an absent element modifies nothing; in every other case it returns the
error meaning the request does not exist or the walker was already accepted
or never volunteered. -/
theorem remove_acceptance_success_iff (rid uid : String) (n : Nat)
    (pre post : Store) (r : StoredRequest)
    (hp : objectIdFromStr rid = Except.ok n)
    (hpre : ∀ x ∈ pre, x.oid ≠ n) (hpost : ∀ x ∈ post, x.oid ≠ n) (hr : r.oid = n) :
    ((Service.remove_acceptance rid uid (pre ++ r :: post)).1 = Except.ok () ↔
      (r.accepted_by ≠ some uid ∧ uid ∈ r.acceptances)) ∧
    (¬(r.accepted_by ≠ some uid ∧ uid ∈ r.acceptances) →
      (Service.remove_acceptance rid uid (pre ++ r :: post)).1 =
        Except.error "请求不存在或狗狗主人已通过请求") := by
  have hvalid : validUpdateDoc (walkRequestUpdateToDoc { remove_from_acceptances := some uid }) = true := rfl
  have hchanged : ∀ x : StoredRequest,
      decide (applyUpdateDoc (walkRequestUpdateToDoc { remove_from_acceptances := some uid }) x ≠ x) =
      decide (uid ∈ x.acceptances) := by
    intro x
    rw [apply_removeUpdate]
    apply decide_eq_decide.mpr
    rw [Ne, withAcceptances_eq_self, filter_ne_eq_self_iff]
    tauto
  have hpred : ∀ x : StoredRequest,
      (matchQueryDoc [("_id", Bson.objId n), ("accepted_by", Bson.doc [("$ne", Bson.str uid)])] x &&
        decide (applyUpdateDoc (walkRequestUpdateToDoc { remove_from_acceptances := some uid }) x ≠ x)) =
      ((x.oid == n) && (x.accepted_by != some uid) && decide (uid ∈ x.acceptances)) := by
    intro x
    rw [match_removeFilter, hchanged]
  unfold Service.remove_acceptance update_walk_requests_by_query
  rw [removeFilter_eq rid uid n hp]
  simp only [hvalid, if_true, updateManyGo_eq]
  simp only [hpred]
  rw [filter_single_mid _ pre post r
    (fun x hx => by simp [hpre x hx])
    (fun x hx => by simp [hpost x hx])]
  simp only [hr, beq_self_eq_true, Bool.true_and]
  by_cases hc : (r.accepted_by != some uid && decide (uid ∈ r.acceptances)) = true
  · rw [if_pos hc]
    simp only [Bool.and_eq_true, bne_iff_ne, decide_eq_true_eq] at hc
    simp [hc]
  · rw [if_neg hc]
    simp only [Bool.and_eq_true, bne_iff_ne, decide_eq_true_eq] at hc
    simp [hc]

/-- Closed instance of the remove-volunteer theorem: removing a walker who
volunteered on an unassigned request succeeds. -/
theorem remove_acceptance_success_iff_witness :
    (Service.remove_acceptance "000000000000000000000001" "w1"
      [{ oid := 1, acceptances := ["w1"] }]).1 = Except.ok () := by
  have h := (remove_acceptance_success_iff "000000000000000000000001" "w1" 1 [] []
    { oid := 1, acceptances := ["w1"] } (by decide)
    (fun x hx => absurd hx (List.not_mem_nil x))
    (fun x hx => absurd hx (List.not_mem_nil x)) rfl).1
  exact h.mpr (by decide)

/-- Conversion of a query whose nearby list has not exactly three components fails. -/
theorem queryToDoc_nearby_bad (q : WalkRequestQuery) (l : List Int)
    (hn : q.nearby = some l) (hl : l.length ≠ 3) :
    ∃ e, walkRequestQueryToDoc q = Except.error e := by
  have hl2 : (l.length != 3) = true := by simpa using hl
  have haux : ∀ q0, walkRequestQueryToDocAux q0 q =
      Except.error "Invalid nearby query, expect [f64;3]" := by
    intro q0
    rw [walkRequestQueryToDocAux, hn]
    simp [hl2]
  cases hid : q.id with
  | none =>
    exact ⟨_, by rw [walkRequestQueryToDoc, hid, haux]⟩
  | some id =>
    cases hpo : objectIdFromStr id with
    | error e =>
      refine ⟨e, ?_⟩
      rw [walkRequestQueryToDoc, hid]
      simp [hpo]
    | ok n =>
      refine ⟨"Invalid nearby query, expect [f64;3]", ?_⟩
      rw [walkRequestQueryToDoc, hid]
      simp [hpo, haux]

/-- Without an id constraint, the malformed-nearby failure carries the exact validation message of the source. -/
theorem queryToDoc_nearby_bad_noid (q : WalkRequestQuery) (l : List Int)
    (hn : q.nearby = some l) (hl : l.length ≠ 3) (hid : q.id = none) :
    walkRequestQueryToDoc q = Except.error "Invalid nearby query, expect [f64;3]" := by
  have hl2 : (l.length != 3) = true := by simpa using hl
  rw [walkRequestQueryToDoc, hid, walkRequestQueryToDocAux, hn]
  simp [hl2]

/-- A successfully converted query with a three-component nearby constraint is exactly the geoNear document of the source, for some inner query sub-document. -/
theorem queryToDoc_nearby_shape (q : WalkRequestQuery) (lo la rad : Int)
    (hn : q.nearby = some [lo, la, rad]) (d : Doc)
    (hok : walkRequestQueryToDoc q = Except.ok d) :
    ∃ inner : Doc,
      d = [("$geoNear", Bson.doc [
        ("near", Bson.doc [("type", Bson.str "Point"),
          ("coordinates", Bson.arr [Bson.int lo, Bson.int la])]),
        ("distanceField", Bson.str "distance"),
        ("maxDistance", Bson.int rad),
        ("spherical", Bson.bool true),
        ("query", Bson.doc inner),
        ("includeLocs", Bson.str "location")])] := by
  have haux : ∀ q0 d2, walkRequestQueryToDocAux q0 q = Except.ok d2 → ∃ inner : Doc,
      d2 = [("$geoNear", Bson.doc [
        ("near", Bson.doc [("type", Bson.str "Point"),
          ("coordinates", Bson.arr [Bson.int lo, Bson.int la])]),
        ("distanceField", Bson.str "distance"),
        ("maxDistance", Bson.int rad),
        ("spherical", Bson.bool true),
        ("query", Bson.doc inner),
        ("includeLocs", Bson.str "location")])] := by
    intro q0 d2 h
    rw [walkRequestQueryToDocAux, hn] at h
    simp at h
    exact ⟨_, h.symm⟩
  cases hid : q.id with
  | none =>
    rw [walkRequestQueryToDoc, hid] at hok
    exact haux _ _ hok
  | some id =>
    cases hpo : objectIdFromStr id with
    | error e =>
      rw [walkRequestQueryToDoc, hid] at hok
      simp [hpo] at hok
    | ok n =>
      rw [walkRequestQueryToDoc, hid] at hok
      simp [hpo] at hok
      exact haux _ _ hok

/-- C8: a query whose nearby constraint has a number of components different
from three fails with a validation error that is independent of the store
content, so before any store access, carrying the exact message when the id
constraint is absent; with exactly three components (longitude, latitude,
radius) the executed scan returns only records within the radius, ranked by
ascending distance, with the distance field populated on each result. -/
theorem nearby_validation_and_ranked_scan :
    (∀ (q : WalkRequestQuery) (l : List Int), q.nearby = some l → l.length ≠ 3 →
      ∃ e, ∀ (dist : StoredRequest → Int)
        (fieldLe : String → StoredRequest → StoredRequest → Bool)
        (sort_by : Option SortBy) (pagination : Option Pagination) (s : Store),
        query_walk_requests dist fieldLe q sort_by pagination s = Except.error e) ∧
    (∀ (q : WalkRequestQuery) (l : List Int), q.nearby = some l → l.length ≠ 3 → q.id = none →
      ∀ (dist : StoredRequest → Int) (fieldLe : String → StoredRequest → StoredRequest → Bool)
        (sort_by : Option SortBy) (pagination : Option Pagination) (s : Store),
        query_walk_requests dist fieldLe q sort_by pagination s =
          Except.error "Invalid nearby query, expect [f64;3]") ∧
    (∀ (q : WalkRequestQuery) (lo la rad : Int) (d : Doc), q.nearby = some [lo, la, rad] →
      walkRequestQueryToDoc q = Except.ok d →
      ∀ (dist : StoredRequest → Int) (fieldLe : String → StoredRequest → StoredRequest → Bool)
        (s : Store), ∃ res,
        query_walk_requests dist fieldLe q none none s = Except.ok res ∧
        (∀ pr ∈ res, pr.2 = some (dist pr.1) ∧ dist pr.1 ≤ rad) ∧
        List.Pairwise (fun a b => dist a.1 ≤ dist b.1) res) := by
  refine ⟨?_, ?_, ?_⟩
  · intro q l hn hl
    obtain ⟨e, he⟩ := queryToDoc_nearby_bad q l hn hl
    refine ⟨e, ?_⟩
    intro dist fieldLe sort_by pagination s
    simp [query_walk_requests, hn, he]
  · intro q l hn hl hid dist fieldLe sort_by pagination s
    have he := queryToDoc_nearby_bad_noid q l hn hl hid
    simp [query_walk_requests, hn, he]
  · intro q lo la rad d hn hok dist fieldLe s
    obtain ⟨inner, hd⟩ := queryToDoc_nearby_shape q lo la rad hn d hok
    subst hd
    refine ⟨(geoNearStage dist inner rad s).map (fun pr => (pr.1, some pr.2)), ?_, ?_, ?_⟩
    · simp [query_walk_requests, hn, hok, docGet, List.find?]
    · intro pr hpr
      rw [List.mem_map] at hpr
      obtain ⟨x, hx, hpr⟩ := hpr
      subst hpr
      rw [geoNearStage] at hx
      rw [List.mem_insertionSort] at hx
      rw [List.mem_map] at hx
      obtain ⟨r, hr, hx⟩ := hx
      subst hx
      rw [List.mem_filter] at hr
      have h2 := hr.2
      simp at h2
      exact ⟨rfl, h2.1⟩
    · haveI : IsTotal (StoredRequest × Int) (fun a b => dist a.1 ≤ dist b.1) :=
        ⟨fun a b => le_total _ _⟩
      haveI : IsTrans (StoredRequest × Int) (fun a b => dist a.1 ≤ dist b.1) :=
        ⟨fun a b c h1 h2 => le_trans h1 h2⟩
      rw [List.pairwise_map]
      exact List.sorted_insertionSort (fun a b : StoredRequest × Int => dist a.1 ≤ dist b.1) _

/-- Closed instance of the nearby theorem: a two-component nearby constraint
is rejected with the validation message, and a three-component one executes
against the store. -/
theorem nearby_validation_and_ranked_scan_witness :
    query_walk_requests (fun _ => 0) (fun _ _ _ => true) { nearby := some [0, 0] } none none [] =
      Except.error "Invalid nearby query, expect [f64;3]" ∧
    ∃ res, query_walk_requests (fun _ => 0) (fun _ _ _ => true) { nearby := some [1, 2, 50] }
      none none [{ oid := 3 }] = Except.ok res := by
  constructor
  · exact nearby_validation_and_ranked_scan.2.1 { nearby := some [0, 0] } [0, 0] rfl
      (by decide) rfl _ _ _ _ _
  · obtain ⟨res, hres, h2, h3⟩ := nearby_validation_and_ranked_scan.2.2
      { nearby := some [1, 2, 50] } 1 2 50 _ rfl rfl
      (fun _ => 0) (fun _ _ _ => true) [{ oid := 3 }]
    exact ⟨res, hres⟩

/-- Truncation of the intended skip product to a natural number distributes over its factors when the page is at least one. -/
theorem toNat_pred_mul (page size : Int) (h1 : 1 ≤ page) (h0 : 0 ≤ size) :
    ((page - 1) * size).toNat = (page.toNat - 1) * size.toNat := by
  lift page to Nat using (by omega : (0:Int) ≤ page) with p
  lift size to Nat using h0 with z
  have e1 : (p : Int) - 1 = ((p - 1 : Nat) : Int) := by
    have : 1 ≤ p := by exact_mod_cast h1
    omega
  rw [e1, ← Nat.cast_mul, Int.toNat_natCast, Int.toNat_natCast, Int.toNat_natCast]

/-- Page extraction as the spec words it in sections 4.5 and 8: the records at offsets from (page - 1) * size inclusive to page * size exclusive of a sequence, with page 1-indexed. -/
def pageOfSortedMatches (l : List α) (page size : Nat) : List α :=
  (l.drop ((page - 1) * size)).take size

/-- C5: pagination is 1-indexed with skip offset (page - 1) * size applied to
the matching, sorted sequence: a plain query with pagination returns exactly
the records at offsets from (page-1)*size to page*size of the find primitive
run without pagination, and a nearby query returns a permutation of that
window of the distance-ranked scan, the permutation being the identity when
no explicit sort is given, so an explicit sort re-orders the page but does
not change which records were selected. -/
theorem pagination_skip_offsets :
    (∀ (dist : StoredRequest → Int) (fieldLe : String → StoredRequest → StoredRequest → Bool)
       (q : WalkRequestQuery) (f : Doc) (sort_by : Option SortBy) (page size : Int) (s : Store),
       q.nearby = none → walkRequestQueryToDoc q = Except.ok f →
       1 ≤ page → 0 ≤ size → page < 2 ^ 64 → size < 2 ^ 64 → (page - 1) * size < 2 ^ 64 →
       query_walk_requests dist fieldLe q sort_by (some { page := page, size := size }) s =
         Except.ok ((pageOfSortedMatches (findPrimitive fieldLe f sort_by none none s)
             page.toNat size.toNat).map (fun r => (r, (none : Option Int))))) ∧
    (∀ (dist : StoredRequest → Int) (fieldLe : String → StoredRequest → StoredRequest → Bool)
       (q : WalkRequestQuery) (lo la rad : Int) (d : Doc) (sort_by : Option SortBy)
       (page size : Int) (s : Store),
       q.nearby = some [lo, la, rad] → walkRequestQueryToDoc q = Except.ok d →
       1 ≤ page → 0 ≤ size →
       ∃ (inner : Doc) (res : List (StoredRequest × Option Int)),
         query_walk_requests dist fieldLe q sort_by (some { page := page, size := size }) s =
           Except.ok res ∧
         res.Perm ((pageOfSortedMatches (geoNearStage dist inner rad s)
             page.toNat size.toNat).map (fun pr => (pr.1, some pr.2))) ∧
         (sort_by = none →
           res = (pageOfSortedMatches (geoNearStage dist inner rad s)
             page.toNat size.toNat).map (fun pr => (pr.1, some pr.2)))) := by
  constructor
  · intro dist fieldLe q f sort_by page size s hn hok h1 h0 hp hs hps
    rw [query_walk_requests]
    rw [if_neg (by simp [hn])]
    rw [hok]
    have hskip : plainSkip page size = (page.toNat - 1) * size.toNat := by
      rw [← toNat_pred_mul page size h1 h0]
      exact (plain_skip_u64_underflow.1 page size h1 h0 hp hs hps)
    simp [findPrimitive, pageOfSortedMatches, hskip]
  · intro dist fieldLe q lo la rad d sort_by page size s hn hok h1 h0
    obtain ⟨inner, hd⟩ := queryToDoc_nearby_shape q lo la rad hn d hok
    subst hd
    have hnneg : ¬((page - 1) * size < 0) := by
      push_neg
      exact mul_nonneg (by omega) h0
    have hskip : ((page - 1) * size).toNat = (page.toNat - 1) * size.toNat :=
      toNat_pred_mul page size h1 h0
    refine ⟨inner, ?_⟩
    rw [query_walk_requests]
    rw [if_pos (by simp [hn])]
    rw [hok]
    cases sort_by with
    | none =>
      refine ⟨(pageOfSortedMatches (geoNearStage dist inner rad s) page.toNat size.toNat).map
        (fun pr => (pr.1, some pr.2)), ?_, List.Perm.refl _, fun _ => rfl⟩
      simp [docGet, List.find?, hnneg, pageOfSortedMatches, hskip]
    | some sb =>
      refine ⟨(List.insertionSort (fun a b => sortRelB fieldLe sb a.1 b.1 = true)
        (pageOfSortedMatches (geoNearStage dist inner rad s) page.toNat size.toNat)).map
        (fun pr => (pr.1, some pr.2)), ?_, ?_, fun h => by cases h⟩
      · simp [docGet, List.find?, hnneg, pageOfSortedMatches, hskip]
      · exact List.Perm.map _ (List.perm_insertionSort _ _)

/-- Closed instance of the pagination theorem: page two of size one over a
three-record store returns exactly the second record. -/
theorem pagination_skip_offsets_witness :
    query_walk_requests (fun _ => 0) (fun _ _ _ => true) {} none (some { page := 2, size := 1 })
      [{ oid := 1 }, { oid := 2 }, { oid := 3 }] =
      Except.ok [({ oid := 2 }, none)] := by
  have h := pagination_skip_offsets.1 (fun _ => 0) (fun _ _ _ => true) {} [] none 2 1
    [{ oid := 1 }, { oid := 2 }, { oid := 3 }] rfl rfl (by decide) (by decide) (by decide)
    (by decide) (by decide)
  rw [h]
  rfl

/-- The invariant of section 3 of the spec: accepted_by is non-null iff accepted_at is non-null. -/
def acceptedInvariant (r : StoredRequest) : Prop :=
  r.accepted_by.isSome = r.accepted_at.isSome

/-- Every record of the store satisfies the accepted pair invariant. -/
def storeInv (s : Store) : Prop :=
  ∀ r ∈ s, acceptedInvariant r

/-- Unfolding of one step of the find-one-and-modify primitive on the store. -/
theorem findOneAndUpdateGo_snd_cons (f u : Doc) (r : StoredRequest) (rest : Store) :
    (findOneAndUpdateGo f u (r :: rest)).2 =
      if matchQueryDoc f r then applyUpdateDoc u r :: rest
      else r :: (findOneAndUpdateGo f u rest).2 := by
  rw [findOneAndUpdateGo]
  by_cases h : matchQueryDoc f r <;> simp [h]

/-- Every record of the store after a find-one-and-modify is an old record or the update of an old record. -/
theorem mem_findOneAndUpdateGo (f u : Doc) (s : Store) (x : StoredRequest)
    (hx : x ∈ (findOneAndUpdateGo f u s).2) :
    x ∈ s ∨ ∃ y ∈ s, x = applyUpdateDoc u y := by
  induction s with
  | nil => simp [findOneAndUpdateGo] at hx
  | cons r rest ih =>
    rw [findOneAndUpdateGo_snd_cons] at hx
    by_cases h : matchQueryDoc f r
    · rw [if_pos h] at hx
      rcases List.mem_cons.mp hx with hx | hx
      · exact Or.inr ⟨r, List.mem_cons_self r rest, hx⟩
      · exact Or.inl (List.mem_cons_of_mem r hx)
    · rw [if_neg h] at hx
      rcases List.mem_cons.mp hx with hx | hx
      · exact Or.inl (hx ▸ List.mem_cons_self r rest)
      · rcases ih hx with h2 | ⟨y, hy, h2⟩
        · exact Or.inl (List.mem_cons_of_mem r h2)
        · exact Or.inr ⟨y, List.mem_cons_of_mem r hy, h2⟩

/-- Every record of the store after an update-many is an old record or the update of an old record. -/
theorem mem_updateManyGo (f u : Doc) (s : Store) (x : StoredRequest)
    (hx : x ∈ (updateManyGo f u s).2) :
    x ∈ s ∨ ∃ y ∈ s, x = applyUpdateDoc u y := by
  rw [updateManyGo_eq] at hx
  rw [List.mem_map] at hx
  obtain ⟨y, hy, hfx⟩ := hx
  by_cases h : matchQueryDoc f y
  · rw [if_pos h] at hfx
    exact Or.inr ⟨y, hy, hfx.symm⟩
  · rw [if_neg h] at hfx
    exact Or.inl (hfx ▸ hy)

/-- A pointwise invariant-preserving update preserves the store invariant through the find-one-and-modify repository operation. -/
theorem storeInv_update_one (query : WalkRequestQuery) (update : WalkRequestUpdate) (s : Store)
    (hpt : ∀ y, acceptedInvariant y →
      acceptedInvariant (applyUpdateDoc (walkRequestUpdateToDoc update) y))
    (h : storeInv s) : storeInv (update_walk_request_by_query query update s).2 := by
  intro x hx
  rw [update_walk_request_by_query] at hx
  cases hq : walkRequestQueryToDoc query with
  | error e =>
    simp only [hq] at hx
    exact h x hx
  | ok f =>
    simp only [hq] at hx
    by_cases hv : validUpdateDoc (walkRequestUpdateToDoc update)
    · rw [if_pos hv] at hx
      rcases hfo : findOneAndUpdateGo f (walkRequestUpdateToDoc update) s with ⟨res, s2⟩
      rw [hfo] at hx
      have hs2 : s2 = (findOneAndUpdateGo f (walkRequestUpdateToDoc update) s).2 := by
        rw [hfo]
      cases res with
      | none =>
        simp only [] at hx
        rcases mem_findOneAndUpdateGo f _ s x (hs2 ▸ hx) with h2 | ⟨y, hy, h2⟩
        · exact h x h2
        · exact h2 ▸ hpt y (h y hy)
      | some r =>
        simp only [] at hx
        rcases mem_findOneAndUpdateGo f _ s x (hs2 ▸ hx) with h2 | ⟨y, hy, h2⟩
        · exact h x h2
        · exact h2 ▸ hpt y (h y hy)
    · rw [if_neg hv] at hx
      exact h x hx

/-- A pointwise invariant-preserving update preserves the store invariant through the update-many repository operation. -/
theorem storeInv_update_many (query : WalkRequestQuery) (update : WalkRequestUpdate) (s : Store)
    (hpt : ∀ y, acceptedInvariant y →
      acceptedInvariant (applyUpdateDoc (walkRequestUpdateToDoc update) y))
    (h : storeInv s) : storeInv (update_walk_requests_by_query query update s).2 := by
  intro x hx
  rw [update_walk_requests_by_query] at hx
  cases hq : walkRequestQueryToDoc query with
  | error e =>
    simp only [hq] at hx
    exact h x hx
  | ok f =>
    simp only [hq] at hx
    by_cases hv : validUpdateDoc (walkRequestUpdateToDoc update)
    · rw [if_pos hv] at hx
      rcases hfo : updateManyGo f (walkRequestUpdateToDoc update) s with ⟨n, s2⟩
      rw [hfo] at hx
      have hs2 : s2 = (updateManyGo f (walkRequestUpdateToDoc update) s).2 := by
        rw [hfo]
      simp only [] at hx
      rcases mem_updateManyGo f _ s x (hs2 ▸ hx) with h2 | ⟨y, hy, h2⟩
      · exact h x h2
      · exact h2 ▸ hpt y (h y hy)
    · rw [if_neg hv] at hx
      exact h x hx

/-- The accept mutation assigns accepted_by and accepted_at together and touches nothing else. -/
theorem apply_acceptUpdate (uid : String) (now : Nat) (x : StoredRequest) :
    applyUpdateDoc (walkRequestUpdateToDoc { accepted_by := some uid, accepted_at := some now }) x =
      { x with accepted_by := some uid, accepted_at := some now } := by
  rfl

/-- The dismiss mutation clears accepted_by and accepted_at together and touches nothing else. -/
theorem apply_dismissUpdate (x : StoredRequest) :
    applyUpdateDoc (walkRequestUpdateToDoc { unset_accepted_by := true, unset_accepted_at := true }) x =
      { x with accepted_by := none, accepted_at := none } := by
  rfl

/-- The resign mutation clears accepted_by and accepted_at together and removes the walker from acceptances. -/
theorem apply_resignUpdate (uid : String) (x : StoredRequest) :
    applyUpdateDoc (walkRequestUpdateToDoc
        { unset_accepted_by := true, unset_accepted_at := true, remove_from_acceptances := some uid }) x =
      { x with
        accepted_by := none,
        accepted_at := none,
        acceptances := x.acceptances.filter (fun a => a != uid) } := by
  rfl

/-- The cancel mutation, whose canceled_at assignment the conversion drops, leaves every record unchanged. -/
theorem apply_cancelUpdate (now : Nat) (x : StoredRequest) :
    applyUpdateDoc (walkRequestUpdateToDoc { canceled_at := some now }) x = x := by
  rfl

/-- The start mutation assigns started_at only. -/
theorem apply_startUpdate (now : Nat) (x : StoredRequest) :
    applyUpdateDoc (walkRequestUpdateToDoc { started_at := some now }) x =
      { x with started_at := some now } := by
  rfl

/-- The finish mutation assigns finished_at only. -/
theorem apply_finishUpdate (now : Nat) (x : StoredRequest) :
    applyUpdateDoc (walkRequestUpdateToDoc { finished_at := some now }) x =
      { x with finished_at := some now } := by
  rfl

/-- The volunteer mutation, whose set-insert the store rejects, changes no record field. -/
theorem apply_volunteerUpdate (uid : String) (x : StoredRequest) :
    applyUpdateDoc (walkRequestUpdateToDoc { add_to_acceptances := some uid }) x = x := by
  rfl

/-- C9: every lifecycle operation preserves the invariant that a request's
accepted_by is non-null iff accepted_at is non-null: the accept and assign
mutations set both fields together, the dismiss and resign mutations clear
both together, and each service operation (accept, assign, dismiss, resign,
the two cancels, remove volunteer, start, finish, volunteer) maps a store
whose records all satisfy the invariant to a store whose records all satisfy
it, so no operation sets or clears only one of the two. -/
theorem accepted_by_iff_accepted_at_invariant :
    (∀ (uid : String) (now : Nat) (x : StoredRequest),
      applyUpdateDoc (walkRequestUpdateToDoc { accepted_by := some uid, accepted_at := some now }) x =
        { x with accepted_by := some uid, accepted_at := some now }) ∧
    (∀ (x : StoredRequest),
      applyUpdateDoc (walkRequestUpdateToDoc { unset_accepted_by := true, unset_accepted_at := true }) x =
        { x with accepted_by := none, accepted_at := none }) ∧
    (∀ (rid uid : String) (now : Nat) (s : Store), storeInv s →
      storeInv (Service.accept rid uid now s).2 ∧
      storeInv (Service.assign_accepter rid uid now s).2 ∧
      storeInv (Service.dismiss_accepter rid uid s).2 ∧
      storeInv (Service.resign_acceptance rid uid s).2 ∧
      storeInv (Service.cancel_unaccepted_request rid now s).2 ∧
      storeInv (Service.cancel_accepted_request rid uid now s).2 ∧
      storeInv (Service.remove_acceptance rid uid s).2 ∧
      storeInv (Service.start_walk rid uid now s).2 ∧
      storeInv (Service.finish_walk rid uid now s).2 ∧
      storeInv (volunteerOp rid uid s).2) := by
  refine ⟨apply_acceptUpdate, apply_dismissUpdate, ?_⟩
  intro rid uid now s hInv
  have hptAccept : ∀ y, acceptedInvariant y → acceptedInvariant (applyUpdateDoc
      (walkRequestUpdateToDoc { accepted_by := some uid, accepted_at := some now }) y) := by
    intro y hy
    rw [apply_acceptUpdate]
    simp [acceptedInvariant]
  have hptDismiss : ∀ y, acceptedInvariant y → acceptedInvariant (applyUpdateDoc
      (walkRequestUpdateToDoc { unset_accepted_by := true, unset_accepted_at := true }) y) := by
    intro y hy
    rw [apply_dismissUpdate]
    simp [acceptedInvariant]
  have hptResign : ∀ y, acceptedInvariant y → acceptedInvariant (applyUpdateDoc
      (walkRequestUpdateToDoc
        { unset_accepted_by := true, unset_accepted_at := true, remove_from_acceptances := some uid }) y) := by
    intro y hy
    rw [apply_resignUpdate]
    simp [acceptedInvariant]
  have hptCancel : ∀ y, acceptedInvariant y → acceptedInvariant (applyUpdateDoc
      (walkRequestUpdateToDoc { canceled_at := some now }) y) := by
    intro y hy
    rw [apply_cancelUpdate]
    exact hy
  have hptRemove : ∀ y, acceptedInvariant y → acceptedInvariant (applyUpdateDoc
      (walkRequestUpdateToDoc { remove_from_acceptances := some uid }) y) := by
    intro y hy
    rw [apply_removeUpdate]
    simpa [acceptedInvariant] using hy
  have hptStart : ∀ y, acceptedInvariant y → acceptedInvariant (applyUpdateDoc
      (walkRequestUpdateToDoc { started_at := some now }) y) := by
    intro y hy
    rw [apply_startUpdate]
    simpa [acceptedInvariant] using hy
  have hptFinish : ∀ y, acceptedInvariant y → acceptedInvariant (applyUpdateDoc
      (walkRequestUpdateToDoc { finished_at := some now }) y) := by
    intro y hy
    rw [apply_finishUpdate]
    simpa [acceptedInvariant] using hy
  have hptVolunteer : ∀ y, acceptedInvariant y → acceptedInvariant (applyUpdateDoc
      (walkRequestUpdateToDoc { add_to_acceptances := some uid }) y) := by
    intro y hy
    rw [apply_volunteerUpdate]
    exact hy
  refine ⟨?_, ?_, ?_, ?_, ?_, ?_, ?_, ?_, ?_, ?_⟩
  · rw [Service.accept]
    exact storeInv_update_one _ _ _ hptAccept hInv
  · have hsnd : (Service.assign_accepter rid uid now s).2 =
        (update_walk_requests_by_query
          { id := some rid, accepted_by_is_null := some true, acceptances_includes_all := some [uid] }
          { accepted_by := some uid, accepted_at := some now } s).2 := by
      rw [Service.assign_accepter]
      rcases update_walk_requests_by_query
        { id := some rid, accepted_by_is_null := some true, acceptances_includes_all := some [uid] }
        { accepted_by := some uid, accepted_at := some now } s with ⟨res, s2⟩
      cases res with
      | ok n => by_cases h : n == 1 <;> simp [h]
      | error e => rfl
    rw [hsnd]
    exact storeInv_update_many _ _ _ hptAccept hInv
  · have hsnd : (Service.dismiss_accepter rid uid s).2 =
        (update_walk_requests_by_query { id := some rid, accepted_by := some uid }
          { unset_accepted_by := true, unset_accepted_at := true } s).2 := by
      rw [Service.dismiss_accepter]
      rcases update_walk_requests_by_query { id := some rid, accepted_by := some uid }
        { unset_accepted_by := true, unset_accepted_at := true } s with ⟨res, s2⟩
      cases res with
      | ok n => by_cases h : n == 1 <;> simp [h]
      | error e => rfl
    rw [hsnd]
    exact storeInv_update_many _ _ _ hptDismiss hInv
  · have hsnd : (Service.resign_acceptance rid uid s).2 =
        (update_walk_requests_by_query { id := some rid, accepted_by := some uid }
          { unset_accepted_by := true, unset_accepted_at := true, remove_from_acceptances := some uid } s).2 := by
      rw [Service.resign_acceptance]
      rcases update_walk_requests_by_query { id := some rid, accepted_by := some uid }
        { unset_accepted_by := true, unset_accepted_at := true, remove_from_acceptances := some uid } s with ⟨res, s2⟩
      cases res with
      | ok n => by_cases h : n == 1 <;> simp [h]
      | error e => rfl
    rw [hsnd]
    exact storeInv_update_many _ _ _ hptResign hInv
  · have hsnd : (Service.cancel_unaccepted_request rid now s).2 =
        (update_walk_requests_by_query { id := some rid, accepted_by_is_null := some true }
          { canceled_at := some now } s).2 := by
      rw [Service.cancel_unaccepted_request]
      rcases update_walk_requests_by_query { id := some rid, accepted_by_is_null := some true }
        { canceled_at := some now } s with ⟨res, s2⟩
      cases res with
      | ok n => by_cases h : n == 1 <;> simp [h]
      | error e => rfl
    rw [hsnd]
    exact storeInv_update_many _ _ _ hptCancel hInv
  · have hsnd : (Service.cancel_accepted_request rid uid now s).2 =
        (update_walk_requests_by_query { id := some rid, accepted_by := some uid }
          { canceled_at := some now } s).2 := by
      rw [Service.cancel_accepted_request]
      rcases update_walk_requests_by_query { id := some rid, accepted_by := some uid }
        { canceled_at := some now } s with ⟨res, s2⟩
      cases res with
      | ok n => by_cases h : n == 1 <;> simp [h]
      | error e => rfl
    rw [hsnd]
    exact storeInv_update_many _ _ _ hptCancel hInv
  · have hsnd : (Service.remove_acceptance rid uid s).2 =
        (update_walk_requests_by_query { id := some rid, accepted_by_neq := some uid }
          { remove_from_acceptances := some uid } s).2 := by
      rw [Service.remove_acceptance]
      rcases update_walk_requests_by_query { id := some rid, accepted_by_neq := some uid }
        { remove_from_acceptances := some uid } s with ⟨res, s2⟩
      cases res with
      | ok n => by_cases h : n == 1 <;> simp [h]
      | error e => rfl
    rw [hsnd]
    exact storeInv_update_many _ _ _ hptRemove hInv
  · rw [Service.start_walk]
    exact storeInv_update_one _ _ _ hptStart hInv
  · rw [Service.finish_walk]
    exact storeInv_update_one _ _ _ hptFinish hInv
  · rw [volunteerOp]
    exact storeInv_update_many _ _ _ hptVolunteer hInv

/-- Closed instance of the invariant theorem: dismissing and accepting on a
one-record store satisfying the invariant keeps every record satisfying it. -/
theorem accepted_by_iff_accepted_at_invariant_witness :
    storeInv (Service.dismiss_accepter "000000000000000000000001" "w1"
      [{ oid := 1, accepted_by := some "w1", accepted_at := some 2 }]).2 ∧
    storeInv (Service.accept "000000000000000000000001" "w1" 5
      [{ oid := 1, accepted_by := some "w1", accepted_at := some 2 }]).2 := by
  have hs : storeInv [{ oid := 1, accepted_by := some "w1", accepted_at := some 2 }] := by
    intro r hr
    rw [List.mem_singleton] at hr
    subst hr
    rfl
  have h := accepted_by_iff_accepted_at_invariant.2.2 "000000000000000000000001" "w1" 5 _ hs
  exact ⟨h.2.2.1, h.1⟩

/-- The filter document the accept transition submits: id equals the parsed ObjectId and accepted_by is null. -/
def acceptFilter (n : Nat) : Doc :=
  [("_id", Bson.objId n), ("accepted_by", Bson.doc [("$eq", Bson.null)])]

/-- The filter document the assign transition submits: id, accepted_by null, and the walker among the acceptances. -/
def assignFilter (n : Nat) (uid : String) : Doc :=
  [("_id", Bson.objId n), ("accepted_by", Bson.doc [("$eq", Bson.null)]),
   ("acceptances", Bson.doc [("$all", Bson.arr [Bson.str uid])])]

/-- Conversion of the accept query produces exactly the accept filter. -/
theorem acceptQuery_toDoc (rid : String) (n : Nat) (hp : objectIdFromStr rid = Except.ok n) :
    walkRequestQueryToDoc { id := some rid, accepted_by_is_null := some true } =
      Except.ok (acceptFilter n) := by
  simp [walkRequestQueryToDoc, walkRequestQueryToDocAux, optInsert, hp, docInsert, acceptFilter]

/-- Conversion of the assign query produces exactly the assign filter. -/
theorem assignQuery_toDoc (rid uid : String) (n : Nat) (hp : objectIdFromStr rid = Except.ok n) :
    walkRequestQueryToDoc
      { id := some rid, accepted_by_is_null := some true, acceptances_includes_all := some [uid] } =
      Except.ok (assignFilter n uid) := by
  simp [walkRequestQueryToDoc, walkRequestQueryToDocAux, optInsert, hp, docInsert, assignFilter]

/-- The accept filter matches a record exactly when the id agrees and accepted_by is absent. -/
theorem match_acceptFilter (n : Nat) (x : StoredRequest) :
    matchQueryDoc (acceptFilter n) x = ((x.oid == n) && (x.accepted_by == none)) := by
  simp [matchQueryDoc, acceptFilter, List.all]
  rfl

/-- The assign filter matches a record exactly when the id agrees, accepted_by is absent and the walker volunteered. -/
theorem match_assignFilter (n : Nat) (uid : String) (x : StoredRequest) :
    matchQueryDoc (assignFilter n uid) x =
      ((x.oid == n) && (x.accepted_by == none) && x.acceptances.contains uid) := by
  have h : matchQueryDoc (assignFilter n uid) x =
      ((x.oid == n) && ((x.accepted_by == none) &&
        ((x.acceptances.contains uid && true) && true))) := rfl
  rw [h, Bool.and_true, Bool.and_true, ← Bool.and_assoc]

/-- An update-many over a store with no matching record modifies zero records and leaves the store unchanged. -/
theorem updateManyGo_no_match (f u : Doc) (s : Store)
    (h : ∀ x ∈ s, matchQueryDoc f x = false) :
    updateManyGo f u s = (0, s) := by
  rw [updateManyGo_eq]
  rw [List.filter_eq_nil_iff.mpr (fun a ha => by simp [h a ha])]
  have h2 : ∀ a ∈ s, (if matchQueryDoc f a then applyUpdateDoc u a else a) = id a := by
    intro a ha
    simp [h a ha]
  rw [List.map_congr_left h2, List.map_id]
  rfl

/-- An update-many whose filter matches exactly the middle record updates it alone, reporting one modification exactly when the record actually changes. -/
theorem updateMany_store_single (f u : Doc) (pre post : Store) (r : StoredRequest)
    (hpre : ∀ x ∈ pre, matchQueryDoc f x = false) (hpost : ∀ x ∈ post, matchQueryDoc f x = false)
    (hr : matchQueryDoc f r = true) :
    updateManyGo f u (pre ++ r :: post) =
      ((if applyUpdateDoc u r = r then 0 else 1), pre ++ applyUpdateDoc u r :: post) := by
  rw [updateManyGo_eq]
  rw [filter_single_mid _ pre post r
    (fun x hx => by simp [hpre x hx]) (fun x hx => by simp [hpost x hx])]
  rw [List.map_append, List.map_cons]
  have h2 : ∀ a ∈ pre, (if matchQueryDoc f a then applyUpdateDoc u a else a) = id a := by
    intro a ha
    simp [hpre a ha]
  have h3 : ∀ a ∈ post, (if matchQueryDoc f a then applyUpdateDoc u a else a) = id a := by
    intro a ha
    simp [hpost a ha]
  rw [List.map_congr_left h2, List.map_congr_left h3, List.map_id, List.map_id]
  rw [if_pos hr]
  by_cases hch : applyUpdateDoc u r = r <;> simp [hch, hr]


/-- No record with the targeted id is still unassigned. -/
def noFreeTarget (n : Nat) (s : Store) : Prop :=
  ∀ x ∈ s, x.oid = n → x.accepted_by ≠ none

/-- An accept against a store whose targeted records are all assigned guard-fails with the not-found error and changes nothing. -/
theorem accept_step_fail (rid uid : String) (n now : Nat) (s : Store)
    (hp : objectIdFromStr rid = Except.ok n) (hfree : noFreeTarget n s) :
    Service.accept rid uid now s = (Except.error "代遛请求不存在", s) := by
  rw [Service.accept, update_walk_request_by_query, acceptQuery_toDoc rid n hp]
  have hmatch : ∀ x ∈ s, matchQueryDoc (acceptFilter n) x = false := by
    intro x hx
    rw [match_acceptFilter]
    by_cases h : x.oid = n
    · simp [hfree x hx h]
    · simp [h]
  have hv : validUpdateDoc (walkRequestUpdateToDoc
      { accepted_by := some uid, accepted_at := some now }) = true := rfl
  simp only [hv, findOneAndUpdateGo_no_match _ _ s hmatch, eq_self_iff_true, if_true]

/-- An assign against a store whose targeted records are all assigned guard-fails with its error and changes nothing. -/
theorem assign_step_fail (rid uid : String) (n now : Nat) (s : Store)
    (hp : objectIdFromStr rid = Except.ok n) (hfree : noFreeTarget n s) :
    Service.assign_accepter rid uid now s = (Except.error "请求不存在或该用户已取消报名", s) := by
  rw [Service.assign_accepter, update_walk_requests_by_query, assignQuery_toDoc rid uid n hp]
  have hmatch : ∀ x ∈ s, matchQueryDoc (assignFilter n uid) x = false := by
    intro x hx
    rw [match_assignFilter]
    by_cases h : x.oid = n
    · simp [hfree x hx h]
    · simp [h]
  have hv : validUpdateDoc (walkRequestUpdateToDoc
      { accepted_by := some uid, accepted_at := some now }) = true := rfl
  simp only [hv, updateManyGo_no_match _ _ s hmatch, eq_self_iff_true, if_true]
  rfl

/-- Assigning a walker to an unassigned record produces a different record. -/
theorem acceptApply_ne (uid : String) (now : Nat) (r : StoredRequest)
    (hr : r.accepted_by = none) :
    ({ r with accepted_by := some uid, accepted_at := some now } : StoredRequest) ≠ r := by
  intro h
  have h2 := congrArg StoredRequest.accepted_by h
  rw [hr] at h2
  cases h2

/-- An accept against a store holding the unassigned target succeeds, returning the updated record with accepted_by and accepted_at set, and replaces only that record. -/
theorem accept_step_success (rid uid : String) (n now : Nat) (pre post : Store) (r : StoredRequest)
    (hp : objectIdFromStr rid = Except.ok n)
    (hpre : ∀ x ∈ pre, x.oid ≠ n)
    (hr : r.oid = n) (hfree : r.accepted_by = none) :
    Service.accept rid uid now (pre ++ r :: post) =
      (Except.ok { r with accepted_by := some uid, accepted_at := some now },
       pre ++ { r with accepted_by := some uid, accepted_at := some now } :: post) := by
  rw [Service.accept, update_walk_request_by_query, acceptQuery_toDoc rid n hp]
  have hv : validUpdateDoc (walkRequestUpdateToDoc
      { accepted_by := some uid, accepted_at := some now }) = true := rfl
  have hfo := findOneAndUpdateGo_first (acceptFilter n)
    (walkRequestUpdateToDoc { accepted_by := some uid, accepted_at := some now }) pre post r
    (fun x hx => by rw [match_acceptFilter]; simp [hpre x hx])
    (by rw [match_acceptFilter]; simp [hr, hfree])
  simp only [hv, eq_self_iff_true, if_true, hfo, apply_acceptUpdate]

/-- An assign by a volunteer against a store holding the unassigned target succeeds and replaces only that record. -/
theorem assign_step_success (rid uid : String) (n now : Nat) (pre post : Store) (r : StoredRequest)
    (hp : objectIdFromStr rid = Except.ok n)
    (hpre : ∀ x ∈ pre, x.oid ≠ n) (hpost : ∀ x ∈ post, x.oid ≠ n)
    (hr : r.oid = n) (hfree : r.accepted_by = none) (hvol : uid ∈ r.acceptances) :
    Service.assign_accepter rid uid now (pre ++ r :: post) =
      (Except.ok (),
       pre ++ { r with accepted_by := some uid, accepted_at := some now } :: post) := by
  rw [Service.assign_accepter, update_walk_requests_by_query, assignQuery_toDoc rid uid n hp]
  have hv : validUpdateDoc (walkRequestUpdateToDoc
      { accepted_by := some uid, accepted_at := some now }) = true := rfl
  have hum := updateMany_store_single (assignFilter n uid)
    (walkRequestUpdateToDoc { accepted_by := some uid, accepted_at := some now }) pre post r
    (fun x hx => by rw [match_assignFilter]; simp [hpre x hx])
    (fun x hx => by rw [match_assignFilter]; simp [hpost x hx])
    (by rw [match_assignFilter]; simp [hr, hfree, hvol])
  rw [apply_acceptUpdate, if_neg (acceptApply_ne uid now r hfree)] at hum
  simp only [hv, eq_self_iff_true, if_true, hum, apply_acceptUpdate]
  rfl

/-- One racing call: a direct accept or an assignment from the volunteers, each by one walker. -/
inductive AcceptCall where
  | viaAccept (uid : String) : AcceptCall
  | viaAssign (uid : String) : AcceptCall

/-- Success observation of one call. -/
def isOkE (e : Except String Unit) : Bool :=
  match e with
  | Except.ok _ => true
  | Except.error _ => false

/-- Serialisation of the race: the store executes the atomic conditional mutations of the calls one after another in the given order (section 5 of the spec: every guarded mutation is pushed into a single atomic store operation, so a concurrent execution is some interleaving, that is some order, of the individual operations); the observed results are collected in order. -/
def runAcceptCalls (rid : String) (now : Nat) : List AcceptCall → Store →
    List (Except String Unit) × Store
  | [], s => ([], s)
  | c :: cs, s =>
    let step : Except String Unit × Store :=
      match c with
      | AcceptCall.viaAccept uid =>
        let p := Service.accept rid uid now s
        (p.1.map (fun _ => ()), p.2)
      | AcceptCall.viaAssign uid => Service.assign_accepter rid uid now s
    let rest := runAcceptCalls rid now cs step.2
    (step.1 :: rest.1, rest.2)

/-- Once every targeted record is assigned, every further accept or assign call observes a guard failure and the store never changes again. -/
theorem runAcceptCalls_all_fail (rid : String) (n now : Nat) (calls : List AcceptCall) (s : Store)
    (hp : objectIdFromStr rid = Except.ok n) (hfree : noFreeTarget n s) :
    ((runAcceptCalls rid now calls s).1.countP isOkE = 0) ∧
    (runAcceptCalls rid now calls s).2 = s ∧
    ∀ e ∈ (runAcceptCalls rid now calls s).1,
      e = Except.error "代遛请求不存在" ∨ e = Except.error "请求不存在或该用户已取消报名" := by
  induction calls with
  | nil => exact ⟨rfl, rfl, fun e he => absurd he (List.not_mem_nil e)⟩
  | cons c cs ih =>
    cases c with
    | viaAccept uid =>
      rw [runAcceptCalls]
      simp only [accept_step_fail rid uid n now s hp hfree]
      obtain ⟨h1, h2, h3⟩ := ih
      refine ⟨?_, h2, ?_⟩
      · rw [List.countP_cons]
        simp [h1, isOkE, Except.map]
      · intro e he
        rcases List.mem_cons.mp he with he | he
        · exact Or.inl he
        · exact h3 e he
    | viaAssign uid =>
      rw [runAcceptCalls]
      simp only [assign_step_fail rid uid n now s hp hfree]
      obtain ⟨h1, h2, h3⟩ := ih
      refine ⟨?_, h2, ?_⟩
      · rw [List.countP_cons]
        simp [h1, isOkE]
      · intro e he
        rcases List.mem_cons.mp he with he | he
        · exact Or.inr he
        · exact h3 e he

/-- C1: for a request with accepted_by absent, when N callers invoke accept
or assign on it in any order, exactly one call succeeds, its guarded mutation
setting accepted_by and accepted_at together, and the other N-1 calls observe
the guard-failure error of their operation, because each call is one
indivisible conditional mutation whose accepted-by-is-null predicate stops
matching as soon as the winner's write lands. -/
theorem accept_race_exactly_one_success (rid : String) (n now : Nat)
    (pre post : Store) (r : StoredRequest) (calls : List AcceptCall)
    (hp : objectIdFromStr rid = Except.ok n)
    (hpre : ∀ x ∈ pre, x.oid ≠ n) (hpost : ∀ x ∈ post, x.oid ≠ n)
    (hr : r.oid = n) (hfree : r.accepted_by = none)
    (hvol : ∀ uid, AcceptCall.viaAssign uid ∈ calls → uid ∈ r.acceptances)
    (hne : calls ≠ []) :
    ((runAcceptCalls rid now calls (pre ++ r :: post)).1.countP isOkE = 1) ∧
    (∀ e ∈ (runAcceptCalls rid now calls (pre ++ r :: post)).1, isOkE e = false →
      e = Except.error "代遛请求不存在" ∨ e = Except.error "请求不存在或该用户已取消报名") ∧
    (∃ w : String, (runAcceptCalls rid now calls (pre ++ r :: post)).2 =
      pre ++ { r with accepted_by := some w, accepted_at := some now } :: post) := by
  cases calls with
  | nil => exact absurd rfl hne
  | cons c cs =>
    have hassigned : ∀ w : String, noFreeTarget n
        (pre ++ { r with accepted_by := some w, accepted_at := some now } :: post) := by
      intro w x hx hxo
      rcases List.mem_append.mp hx with hx | hx
      · exact absurd hxo (hpre x hx)
      · rcases List.mem_cons.mp hx with hx | hx
        · subst hx
          simp
        · exact absurd hxo (hpost x hx)
    cases c with
    | viaAccept uid =>
      rw [runAcceptCalls]
      simp only [accept_step_success rid uid n now pre post r hp hpre hr hfree]
      obtain ⟨h1, h2, h3⟩ := runAcceptCalls_all_fail rid n now cs
        (pre ++ { r with accepted_by := some uid, accepted_at := some now } :: post)
        hp (hassigned uid)
      refine ⟨?_, ?_, ⟨uid, h2⟩⟩
      · rw [List.countP_cons]
        simp [h1, isOkE, Except.map]
      · intro e he hnok
        rcases List.mem_cons.mp he with he | he
        · subst he
          simp [isOkE, Except.map] at hnok
        · exact h3 e he
    | viaAssign uid =>
      have hv : uid ∈ r.acceptances :=
        hvol uid (List.mem_cons_self _ _)
      rw [runAcceptCalls]
      simp only [assign_step_success rid uid n now pre post r hp hpre hpost hr hfree hv]
      obtain ⟨h1, h2, h3⟩ := runAcceptCalls_all_fail rid n now cs
        (pre ++ { r with accepted_by := some uid, accepted_at := some now } :: post)
        hp (hassigned uid)
      refine ⟨?_, ?_, ⟨uid, h2⟩⟩
      · rw [List.countP_cons]
        simp [h1, isOkE]
      · intro e he hnok
        rcases List.mem_cons.mp he with he | he
        · subst he
          simp [isOkE] at hnok
        · exact h3 e he

/-- Closed instance of the race theorem: three racing calls on an unassigned
request with one volunteer produce exactly one success. -/
theorem accept_race_exactly_one_success_witness :
    (runAcceptCalls "000000000000000000000001" 9
      [AcceptCall.viaAccept "w1", AcceptCall.viaAssign "w2", AcceptCall.viaAccept "w3"]
      [{ oid := 1, acceptances := ["w2"] }]).1.countP isOkE = 1 := by
  have h := accept_race_exactly_one_success "000000000000000000000001" 1 9 [] []
    { oid := 1, acceptances := ["w2"] }
    [AcceptCall.viaAccept "w1", AcceptCall.viaAssign "w2", AcceptCall.viaAccept "w3"]
    (by decide)
    (fun x hx => absurd hx (List.not_mem_nil x))
    (fun x hx => absurd hx (List.not_mem_nil x))
    rfl rfl
    (by
      intro uid hu
      simp at hu
      subst hu
      exact List.mem_singleton.mpr rfl)
    (List.cons_ne_nil _ _)
  exact h.1
